import Mathlib

/-!
Shallow embedding of `wrappers/src/fdw/stripe_fdw/stripe_fdw.rs`:
the Stripe foreign-data-wrapper scan engine — JSON response decoding
(`extract_to_rows`), predicate pushdown (`pushdown_quals`), URL building
(`build_url`), per-object schema dispatch (`resp_to_rows`) and the
pagination driver / scan lifecycle (`begin_scan`, `iter_scan`, `end_scan`).

Modelling conventions:
* `serde_json::Value` is the inductive `Json` below; a response body that is
  not valid JSON is represented as `none : Option Json` (the source calls
  `serde_json::from_str(..).unwrap()`, which panics on invalid JSON; panics
  that abort the scan are modelled as `none` / error results).
* Machine integers (`i64`) are `Int`; no arithmetic in this file overflows
  an `i64` and the source performs no wrapping arithmetic.
* The HTTP transport is an oracle `fetch : Nat → HttpResp` giving the
  outcome of the n-th HTTP call made by the scan loop (calls are strictly
  sequential in the source).
-/

/-- Model of `serde_json::Value`.  Only integral numbers occur in the claims;
`as_i64` on a non-integral number returns `None` in serde, matched here by
numbers being `Int` (a float-valued field would simply decode to no cell,
which no claim exercises). -/
inductive Json where
  | null : Json
  | bool : Bool → Json
  | num : Int → Json
  | str : String → Json
  | arr : List Json → Json
  | obj : List (String × Json) → Json

/-- Key lookup in a JSON object's field list (serde `Map::get`; keys are
unique in parsed JSON, lookup returns the first match). -/
def jlookup : List (String × Json) → String → Option Json
  | [], _ => none
  | (k, v) :: rest, key => if k = key then some v else jlookup rest key

/-- `Value::as_object` (only the subsequent `get` is modelled, so the object
is returned as its field list). -/
def Json.asObject : Json → Option (List (String × Json))
  | .obj kvs => some kvs
  | _ => none

/-- `v.as_object().and_then(|o| o.get(k))`. -/
def Json.getKey (j : Json) (k : String) : Option Json :=
  j.asObject.bind (fun kvs => jlookup kvs k)

/-- `Value::as_array`. -/
def Json.asArray : Json → Option (List Json)
  | .arr xs => some xs
  | _ => none

/-- `Value::as_i64`. -/
def Json.asI64 : Json → Option Int
  | .num n => some n
  | _ => none

/-- `Value::as_str`. -/
def Json.asStr : Json → Option String
  | .str s => some s
  | _ => none

/-- `Value::as_bool`. -/
def Json.asBool : Json → Option Bool
  | .bool b => some b
  | _ => none

/-- `supabase_wrappers::Cell`, restricted to the variants this FDW produces.
`timestamp` carries the unix seconds: the source converts them through
`OffsetDateTime::from_unix_timestamp` / `Timestamp::try_from` (an injective
calendar conversion, unwrapped; the out-of-range panic is not modelled, no
claim exercises it). -/
inductive Cell where
  | i64 : Int → Cell
  | string : String → Cell
  | timestamp : Int → Cell
  | json : Json → Cell

/-- `supabase_wrappers::Row`: `row.push(name, cell)` appends a
(column name, optional cell) pair. -/
abbrev Row := List (String × Option Cell)

/-- The typed extraction closure in `extract_to_rows`:
`match *col_type { "i64" => .., "string" => .., "timestamp" => .., _ => None }`. -/
def colCell (col_type : String) (v : Json) : Option Cell :=
  match col_type with
  | "i64" => v.asI64.map Cell.i64
  | "string" => v.asStr.map Cell.string
  | "timestamp" => v.asI64.map Cell.timestamp
  | _ => none

/-- One iteration of the `for obj in objs` body of `extract_to_rows`: push a
cell for every schema column that is requested, then the raw element under
`attrs` when requested (the source round-trips `obj` through a string, which
is the identity on the parsed value). -/
def extractRow (object : Json) (common_cols : List (String × String))
    (tgt_cols : List String) : Row :=
  let base := common_cols.filterMap (fun cc =>
    if tgt_cols.any (fun c => c = cc.1) then
      some (cc.1, (object.getKey cc.1).bind (colCell cc.2))
    else none)
  if tgt_cols.any (fun c => c = "attrs") then
    base ++ [("attrs", some (Cell.json object))]
  else base

/-- `extract_to_rows`.  `body = none` models an unparseable response body;
the result `none` models the `unwrap()` panics (parse failure, missing
object key, key not an array), each of which aborts the scan. -/
def extract_to_rows (body : Option Json) (obj_key : String)
    (common_cols : List (String × String)) (tgt_cols : List String) :
    Option (List Row × Option String × Option Bool) :=
  match body with
  | none => none
  | some value =>
    match (value.asObject.bind (fun v => jlookup v obj_key)).bind Json.asArray with
    | none => none
    | some objs =>
      let result := objs.map (fun o => extractRow o common_cols tgt_cols)
      let cursor := objs.getLast?.bind (fun last =>
        (last.getKey "id").bind Json.asStr)
      let has_more := (value.getKey "has_more").bind Json.asBool
      some (result, cursor, has_more)

/-- `supabase_wrappers::Value` (qual comparison value). -/
inductive Value where
  | cell : Cell → Value
  | array : List Cell → Value

/-- `supabase_wrappers::Qual`. -/
structure Qual where
  field : String
  operator : String
  value : Value
  use_or : Bool

/-- `supabase_wrappers::Limit`. -/
structure Limit where
  count : Int
  offset : Int

/-- A built URL: joined path plus the ordered query-pair list appended by
`query_pairs_mut().append_pair(..)`. -/
structure Url where
  path : String
  queryPairs : List (String × String)

/-- The inner `for field in &fields` loop of `pushdown_quals` for one qual:
append `(field, s)` for every eligible field equal to the qual's field when
the qual is an equality, non-disjunctive, with a string cell value. -/
def qualPair (fields : List String) (q : Qual) : List (String × String) :=
  match fields with
  | [] => []
  | field :: rest =>
    (if q.field = field ∧ q.operator = "=" ∧ q.use_or = false then
      match q.value with
      | .cell (.string s) => [(field, s)]
      | _ => []
     else []) ++ qualPair rest q

/-- `pushdown_quals`: outer loop over quals, inner loop over eligible
fields, appending query pairs to the URL. -/
def pushdown_quals (url : Url) (quals : List Qual) (fields : List String) : Url :=
  match quals with
  | [] => url
  | q :: rest =>
    pushdown_quals { url with queryPairs := url.queryPairs ++ qualPair fields q } rest fields

/-- `StripeFdw::build_url`.  The source returns `Some(url)` unconditionally
(`base_url.join(&obj).unwrap()` panics rather than returning `None`), so the
model returns the `Url` directly; `begin_scan`'s `url.is_none()` check is
dead code. -/
def build_url (base_url : String) (obj : String) (quals : List Qual)
    (page_size : Int) (cursor : Option String) : Url :=
  let url : Url := { path := base_url ++ obj, queryPairs := [] }
  let url := if obj = "balance_transactions" then
    pushdown_quals url quals ["payout", "type"] else url
  let url := if obj = "charges" then
    pushdown_quals url quals ["customer"] else url
  let url := if obj = "customers" then
    pushdown_quals url quals ["email"] else url
  let url := if obj = "invoices" then
    pushdown_quals url quals ["customer", "status", "subscription"] else url
  let url := if obj = "payment_intents" then
    pushdown_quals url quals ["customer"] else url
  let url := if obj = "subscriptions" then
    pushdown_quals url quals ["customer", "price", "status"] else url
  if obj = "balance" then url
  else
    let url := { url with queryPairs := url.queryPairs ++ [("limit", toString page_size)] }
    match cursor with
    | some c => { url with queryPairs := url.queryPairs ++ [("starting_after", c)] }
    | none => url

/-- Error conditions raised through `report_error` / panics. -/
inductive ScanErr where
  | malformed : ScanErr
  | tableNotFound : ScanErr
  | fetchFailed : ScanErr
  | optionNotFound : ScanErr
deriving DecidableEq

/-- Lift `extract_to_rows` into the error monad: its `unwrap()` panics
become the malformed-response condition. -/
def extLift (body : Option Json) (obj_key : String)
    (common_cols : List (String × String)) (tgt_cols : List String) :
    Except ScanErr (List Row × Option String × Option Bool) :=
  match extract_to_rows body obj_key common_cols tgt_cols with
  | none => .error .malformed
  | some r => .ok r

/-- `StripeFdw::resp_to_rows`: schema dispatch over the object type.  The
unknown-object arm calls `report_error(ERRCODE_FDW_TABLE_NOT_FOUND, ..)`,
which raises; modelled as the `tableNotFound` error. -/
def resp_to_rows (obj : String) (body : Option Json) (tgt_cols : List String) :
    Except ScanErr (List Row × Option String × Option Bool) :=
  match obj with
  | "balance" => extLift body "available"
      [("amount", "i64"), ("currency", "string")] tgt_cols
  | "balance_transactions" => extLift body "data"
      [("id", "string"), ("amount", "i64"), ("currency", "string"),
       ("description", "string"), ("fee", "i64"), ("net", "i64"),
       ("status", "string"), ("type", "string"), ("created", "timestamp")] tgt_cols
  | "charges" => extLift body "data"
      [("id", "string"), ("amount", "i64"), ("currency", "string"),
       ("customer", "string"), ("description", "string"), ("invoice", "string"),
       ("payment_intent", "string"), ("status", "string"),
       ("created", "timestamp")] tgt_cols
  | "customers" => extLift body "data"
      [("id", "string"), ("email", "string")] tgt_cols
  | "invoices" => extLift body "data"
      [("id", "string"), ("customer", "string"), ("subscription", "string"),
       ("status", "string"), ("total", "i64"), ("currency", "string"),
       ("period_start", "timestamp"), ("period_end", "timestamp")] tgt_cols
  | "payment_intents" => extLift body "data"
      [("id", "string"), ("customer", "string"), ("amount", "i64"),
       ("currency", "string"), ("payment_method", "string"),
       ("created", "timestamp")] tgt_cols
  | "subscriptions" => extLift body "data"
      [("id", "string"), ("customer", "string"), ("currency", "string"),
       ("current_period_start", "timestamp"),
       ("current_period_end", "timestamp")] tgt_cols
  | _ => .error .tableNotFound

/-- Outcome of one HTTP call as seen by `begin_scan`: `failed` covers a
transport error or a non-2xx status surfaced by `error_for_status()` (retry
middleware exhausted); `ok body` is a 2xx response, with `none` for a body
that is not valid JSON. -/
inductive HttpResp where
  | failed : HttpResp
  | ok : Option Json → HttpResp

/-- Result of the `while page < page_cnt` loop in `begin_scan`: accumulated
rows, number of HTTP calls issued, the URLs requested in order, the error
condition raised (if any), and whether the loop finished normally
(`completed = false` models the `return` / raised-error paths, on which
`self.scan_result` is never assigned). -/
structure ScanOutcome where
  rows : List Row
  calls : Nat
  urls : List Url
  err : Option ScanErr
  completed : Bool

/-- The fetch loop of `begin_scan`, fuel = `page_cnt - page` (the loop
counter runs `page = 0 .. page_cnt`).  Each iteration: build the URL, issue
the next HTTP call (the oracle is shifted by one for the recursive call, so
`fetch 0` is always the current call), decode, then apply the source's exit
conditions in order: empty page breaks before extending the result,
`has_more = Some(false)` breaks after extending, otherwise the cursor
advances to the decoded `starting_after` value. -/
def scanLoop (obj : String) (quals : List Qual) (columns : List String)
    (base_url : String) (page_size : Int) :
    (Nat → HttpResp) → Nat → Option String → List Row → ScanOutcome
  | _, 0, _, acc => { rows := acc, calls := 0, urls := [], err := none, completed := true }
  | fetch, fuel + 1, cursor, acc =>
    let url := build_url base_url obj quals page_size cursor
    match fetch 0 with
    | .failed =>
      { rows := acc, calls := 1, urls := [url], err := some .fetchFailed, completed := false }
    | .ok body =>
      match resp_to_rows obj body columns with
      | .error e =>
        { rows := acc, calls := 1, urls := [url], err := some e, completed := false }
      | .ok (rows, starting_after, has_more) =>
        if rows.isEmpty then
          { rows := acc, calls := 1, urls := [url], err := none, completed := true }
        else if has_more = some false then
          { rows := acc ++ rows, calls := 1, urls := [url], err := none, completed := true }
        else
          let rest := scanLoop obj quals columns base_url page_size
            (fun n => fetch (n + 1)) fuel starting_after (acc ++ rows)
          { rest with calls := rest.calls + 1, urls := url :: rest.urls }

/-- The `StripeFdw` fields relevant to the scan lifecycle (`rt` is the
blocking runtime, not modelled; `client` is modelled by whether it is
configured). -/
structure FdwState where
  base_url : String
  hasClient : Bool
  scan_result : Option (List Row)

/-- Observable outcome of `begin_scan`: the updated wrapper state plus the
HTTP calls issued, the URLs requested, and the error condition raised. -/
structure BeginOutcome where
  state : FdwState
  calls : Nat
  urls : List Url
  err : Option ScanErr

/-- `HashMap::get` over the scan options (keys unique). -/
def lookupOption : List (String × String) → String → Option String
  | [], _ => none
  | (k, v) :: rest, key => if k = key then some v else lookupOption rest key

/-- `i64::MAX`, the page budget when no limit is given. -/
def i64Max : Int := 9223372036854775807

/-- The page budget `(limit.offset + limit.count) / page_size + 1` computed
by `begin_scan` for a limit with nonzero count (`/` is Rust `i64` division,
i.e. truncation toward zero). -/
def page_cnt_of (limit : Limit) (page_size : Int) : Int :=
  (limit.offset + limit.count).tdiv page_size + 1

/-- Tail of `begin_scan` once the loop runs: `self.scan_result` is assigned
`Some(result)` only when the loop exits normally; the raised-error paths
leave it untouched. -/
def runLoop (st : FdwState) (fetch : Nat → HttpResp) (quals : List Qual)
    (columns : List String) (obj : String) (page_size page_cnt : Int) : BeginOutcome :=
  let out := scanLoop obj quals columns st.base_url page_size fetch page_cnt.toNat none []
  if out.completed then
    { state := { st with scan_result := some out.rows },
      calls := out.calls, urls := out.urls, err := out.err }
  else
    { state := st, calls := out.calls, urls := out.urls, err := out.err }

/-- `StripeFdw::begin_scan`.  `require_option("object", ..)` reports
`ERRCODE_FDW_OPTION_NAME_NOT_FOUND` and yields `None` when the option is
missing, on which the method returns at once; a missing client skips the
whole body; a limit with `count == 0` returns before the loop.  All three
paths issue no HTTP call and leave the state untouched. -/
def begin_scan (st : FdwState) (fetch : Nat → HttpResp) (quals : List Qual)
    (columns : List String) (limit : Option Limit)
    (options : List (String × String)) : BeginOutcome :=
  match lookupOption options "object" with
  | none => { state := st, calls := 0, urls := [], err := some .optionNotFound }
  | some obj =>
    if st.hasClient then
      let page_size : Int := 100
      match limit with
      | some l =>
        if l.count = 0 then
          { state := st, calls := 0, urls := [], err := none }
        else
          runLoop st fetch quals columns obj page_size (page_cnt_of l page_size)
      | none => runLoop st fetch quals columns obj page_size i64Max
    else
      { state := st, calls := 0, urls := [], err := none }

/-- `StripeFdw::iter_scan`: pop the first buffered row; an empty or absent
buffer yields `None` and leaves the state as is (`drain(0..1).last()` on a
non-empty buffer removes and returns the first row). -/
def iter_scan (st : FdwState) : Option Row × FdwState :=
  match st.scan_result with
  | some (r :: rest) => (some r, { st with scan_result := some rest })
  | some [] => (none, st)
  | none => (none, st)

/-- `StripeFdw::end_scan`: `self.scan_result.take()`. -/
def end_scan (st : FdwState) : FdwState :=
  { st with scan_result := none }

/-! ### Derived characterizations and loop invariants -/

/-- The query pairs appended by `pushdown_quals` for a qual list (loop order:
outer over quals, inner over fields). -/
def pairsOf (quals : List Qual) (fields : List String) : List (String × String) :=
  match quals with
  | [] => []
  | q :: rest => qualPair fields q ++ pairsOf rest fields

theorem pushdown_quals_queryPairs (quals : List Qual) : ∀ (url : Url) (fields : List String),
    (pushdown_quals url quals fields).queryPairs = url.queryPairs ++ pairsOf quals fields := by
  induction quals with
  | nil => intro url fields; simp [pushdown_quals, pairsOf]
  | cons q rest ih => intro url fields; simp [pushdown_quals, pairsOf, ih]

theorem pairsOf_nil (quals : List Qual) : pairsOf quals [] = [] := by
  induction quals with
  | nil => rfl
  | cons q rest ih => simp [pairsOf, qualPair, ih]

def cursorPairs : Option String → List (String × String)
  | some c => [("starting_after", c)]
  | none => []

def fieldsFor (obj : String) : List String :=
  if obj = "balance_transactions" then ["payout", "type"]
  else if obj = "charges" then ["customer"]
  else if obj = "customers" then ["email"]
  else if obj = "invoices" then ["customer", "status", "subscription"]
  else if obj = "payment_intents" then ["customer"]
  else if obj = "subscriptions" then ["customer", "price", "status"]
  else []

theorem build_url_queryPairs (base obj : String) (quals : List Qual) (page_size : Int)
    (cursor : Option String) :
    (build_url base obj quals page_size cursor).queryPairs =
      pairsOf quals (fieldsFor obj) ++
        (if obj = "balance" then []
         else ("limit", toString page_size) :: cursorPairs cursor) := by
  unfold build_url fieldsFor
  by_cases h1 : obj = "balance_transactions"
  · subst h1; cases cursor <;> simp [pushdown_quals_queryPairs, cursorPairs]
  · by_cases h2 : obj = "charges"
    · subst h2; cases cursor <;> simp [pushdown_quals_queryPairs, cursorPairs]
    · by_cases h3 : obj = "customers"
      · subst h3; cases cursor <;> simp [pushdown_quals_queryPairs, cursorPairs]
      · by_cases h4 : obj = "invoices"
        · subst h4; cases cursor <;> simp [pushdown_quals_queryPairs, cursorPairs]
        · by_cases h5 : obj = "payment_intents"
          · subst h5; cases cursor <;> simp [pushdown_quals_queryPairs, cursorPairs]
          · by_cases h6 : obj = "subscriptions"
            · subst h6; cases cursor <;> simp [pushdown_quals_queryPairs, cursorPairs]
            · by_cases h7 : obj = "balance"
              · subst h7; simp [pairsOf_nil]
              · cases cursor <;>
                  simp [h1, h2, h3, h4, h5, h6, h7, pairsOf_nil, cursorPairs]

def qualParam (fields : List String) (q : Qual) : Option (String × String) :=
  if q.field ∈ fields ∧ q.operator = "=" ∧ q.use_or = false then
    match q.value with
    | .cell (.string s) => some (q.field, s)
    | _ => none
  else none

theorem qualPair_nil_of_not_mem (fields : List String) (q : Qual) (h : q.field ∉ fields) :
    qualPair fields q = [] := by
  induction fields with
  | nil => rfl
  | cons f rest ih =>
    simp only [List.mem_cons, not_or] at h
    rw [qualPair, ih h.2]
    have hcond : ¬(q.field = f ∧ q.operator = "=" ∧ q.use_or = false) := fun hc => h.1 hc.1
    simp [hcond]

theorem qualPair_eq_of_nodup (fields : List String) (h : fields.Nodup) (q : Qual) :
    qualPair fields q = (qualParam fields q).toList := by
  induction fields with
  | nil => simp [qualPair, qualParam]
  | cons f rest ih =>
    rw [List.nodup_cons] at h
    rw [qualPair]
    by_cases hf : q.field = f
    · rw [qualPair_nil_of_not_mem rest q (hf ▸ h.1), List.append_nil]
      by_cases hop : q.operator = "=" ∧ q.use_or = false
      · rw [if_pos ⟨hf, hop⟩]
        have hmem : q.field ∈ f :: rest := by simp [hf]
        cases hv : q.value with
        | cell c => cases c <;> simp [qualParam, hmem, hop, hv, hf]
        | array cs => simp [qualParam, hmem, hop, hv]
      · rw [not_and_or] at hop
        rcases hop with hop | hop <;>
          simp [qualParam, hop, fun hc => hop (by tauto)]
    · have hpar : qualParam (f :: rest) q = qualParam rest q := by
        by_cases hm : q.field ∈ rest
        · simp [qualParam, List.mem_cons, hf, hm]
        · have h1 : ¬(q.field ∈ f :: rest ∧ q.operator = "=" ∧ q.use_or = false) := by
            simp [List.mem_cons, hf, hm]
          have h2 : ¬(q.field ∈ rest ∧ q.operator = "=" ∧ q.use_or = false) := by
            simp [hm]
          rw [qualParam, if_neg h1, qualParam, if_neg h2]
      have hcond : ¬(q.field = f ∧ q.operator = "=" ∧ q.use_or = false) := fun hc => hf hc.1
      rw [hpar, ← ih h.2, if_neg hcond, List.nil_append]

theorem pairsOf_eq_filterMap (quals : List Qual) (fields : List String) (h : fields.Nodup) :
    pairsOf quals fields = quals.filterMap (qualParam fields) := by
  induction quals with
  | nil => rfl
  | cons q rest ih =>
    rw [pairsOf, List.filterMap_cons, qualPair_eq_of_nodup fields h q, ih]
    cases qualParam fields q <;> simp

theorem fieldsFor_nodup (obj : String) : (fieldsFor obj).Nodup := by
  unfold fieldsFor
  repeat' split
  all_goals decide

theorem mem_qualPair_key (fields : List String) (q : Qual) (p : String × String)
    (h : p ∈ qualPair fields q) : p.1 ∈ fields := by
  induction fields with
  | nil => simp [qualPair] at h
  | cons f rest ih =>
    rw [qualPair, List.mem_append] at h
    rcases h with h | h
    · split at h
      · cases hv : q.value with
        | cell c => cases c <;> rw [hv] at h <;> simp_all
        | array cs => rw [hv] at h; simp at h
      · simp at h
    · simp [ih h]

theorem mem_pairsOf_key (quals : List Qual) (fields : List String) (p : String × String)
    (h : p ∈ pairsOf quals fields) : p.1 ∈ fields := by
  induction quals with
  | nil => simp [pairsOf] at h
  | cons q rest ih =>
    rw [pairsOf, List.mem_append] at h
    rcases h with h | h
    · exact mem_qualPair_key fields q p h
    · exact ih h

theorem starting_after_not_in_fieldsFor (obj : String) : "starting_after" ∉ fieldsFor obj := by
  unfold fieldsFor
  repeat' split
  all_goals decide

/-- Decode outcome of one HTTP call as the loop sees it. -/
def decodeOf (obj : String) (cols : List String) (r : HttpResp) :
    Option (List Row × Option String × Option Bool) :=
  match r with
  | .failed => none
  | .ok body =>
    match resp_to_rows obj body cols with
    | .ok d => some d
    | .error _ => none

theorem scanLoop_calls_le (obj : String) (quals : List Qual) (cols : List String)
    (base : String) (psz : Int) :
    ∀ (fuel : Nat) (fetch : Nat → HttpResp) (cursor : Option String) (acc : List Row),
      (scanLoop obj quals cols base psz fetch fuel cursor acc).calls ≤ fuel := by
  intro fuel
  induction fuel with
  | zero => intro fetch cursor acc; simp [scanLoop]
  | succ f ih =>
    intro fetch cursor acc
    rw [scanLoop]
    cases hf : fetch 0 with
    | failed => simp
    | ok body =>
      cases hr : resp_to_rows obj body cols with
      | error e => simp [hr]
      | ok d =>
        obtain ⟨rows, starting_after, has_more⟩ := d
        simp only [hr]
        cases hrows : rows.isEmpty with
        | true => simp
        | false =>
          simp only [Bool.false_eq_true, if_false]
          by_cases hm : has_more = some false
          · simp [hm]
          · simp only [hm, if_false]
            exact Nat.succ_le_succ (ih _ _ _)

theorem scanLoop_err_of_decode_error (obj : String) (quals : List Qual) (cols : List String)
    (base : String) (psz : Int) (fetch : Nat → HttpResp) (f : Nat) (cursor : Option String)
    (acc : List Row) (body : Option Json) (e : ScanErr)
    (hf : fetch 0 = .ok body) (hr : resp_to_rows obj body cols = .error e) :
    scanLoop obj quals cols base psz fetch (f + 1) cursor acc =
      { rows := acc, calls := 1, urls := [build_url base obj quals psz cursor],
        err := some e, completed := false } := by
  rw [scanLoop]
  simp only [hf, hr]

theorem scanLoop_urls_head (obj : String) (quals : List Qual) (cols : List String)
    (base : String) (psz : Int) (fetch : Nat → HttpResp) (f : Nat) (cursor : Option String)
    (acc : List Row) :
    (scanLoop obj quals cols base psz fetch (f + 1) cursor acc).urls.head? =
      some (build_url base obj quals psz cursor) := by
  rw [scanLoop]
  cases hf : fetch 0 with
  | failed => simp
  | ok body =>
    cases hr : resp_to_rows obj body cols with
    | error e => simp [hr]
    | ok d =>
      obtain ⟨rows, starting_after, has_more⟩ := d
      simp only [hr]
      cases hrows : rows.isEmpty with
      | true => simp
      | false =>
        simp only [Bool.false_eq_true, if_false]
        by_cases hm : has_more = some false <;> simp [hm]

theorem scanLoop_hasMore_chain (obj : String) (quals : List Qual) (cols : List String)
    (base : String) (psz : Int) :
    ∀ (k : Nat), 1 ≤ k →
    ∀ (fetch : Nat → HttpResp) (d : Nat → List Row × Option String × Option Bool),
      (∀ i, i < k → decodeOf obj cols (fetch i) = some (d i)) →
      (∀ i, i < k → (d i).1 ≠ []) →
      (∀ i, i + 1 < k → (d i).2.2 = some true) →
      (d (k - 1)).2.2 = some false →
      ∀ (fuel : Nat), k ≤ fuel → ∀ (cursor : Option String) (acc : List Row),
        (scanLoop obj quals cols base psz fetch fuel cursor acc).calls = k ∧
        (scanLoop obj quals cols base psz fetch fuel cursor acc).err = none ∧
        (scanLoop obj quals cols base psz fetch fuel cursor acc).completed = true := by
  intro k
  induction k with
  | zero => intro hk; omega
  | succ k ih =>
    intro _ fetch d hdec hne hmt hlast fuel hfuel cursor acc
    obtain ⟨f, rfl⟩ : ∃ f, fuel = f + 1 := ⟨fuel - 1, by omega⟩
    have h0 := hdec 0 (by omega)
    rw [scanLoop]
    cases hf : fetch 0 with
    | failed => rw [hf] at h0; simp [decodeOf] at h0
    | ok body =>
      rw [hf] at h0
      cases hr : resp_to_rows obj body cols with
      | error e => rw [decodeOf, hr] at h0; simp at h0
      | ok dd =>
        rw [decodeOf, hr] at h0
        simp only [Option.some.injEq] at h0
        obtain ⟨rows, cur, hm⟩ := dd
        have hrows : rows ≠ [] := by
          have := hne 0 (by omega)
          rw [← h0] at this
          exact fun hnil => this (by simp [hnil])
        have hrowsb : rows.isEmpty = false := by
          cases rows with
          | nil => exact absurd rfl hrows
          | cons a b => rfl
        simp only [hr, hrowsb, Bool.false_eq_true, if_false]
        rcases Nat.eq_zero_or_pos k with rfl | hkpos
        · have hmf : hm = some false := by
            have := hlast
            rw [← h0] at this
            exact this
          simp [hmf]
        · have hmt0 : hm = some true := by
            have := hmt 0 (by omega)
            rw [← h0] at this
            exact this
          have hmne : ¬(hm = some false) := by simp [hmt0]
          simp only [hmne, if_false]
          have step := ih hkpos (fun n => fetch (n + 1)) (fun n => d (n + 1))
            (fun i hi => hdec (i + 1) (by omega))
            (fun i hi => hne (i + 1) (by omega))
            (fun i hi => hmt (i + 1) (by omega))
            (by
              show (d (k - 1 + 1)).2.2 = some false
              have h1 : k - 1 + 1 = k := by omega
              have h2 : k + 1 - 1 = k := by omega
              rw [h1]
              rw [h2] at hlast
              exact hlast)
            f (by omega) cur (acc ++ rows)
          refine ⟨?_, ?_, ?_⟩
          · simp [step.1]
          · simp [step.2.1]
          · simp [step.2.2]

theorem scanLoop_empty_page_stops (obj : String) (quals : List Qual) (cols : List String)
    (base : String) (psz : Int) :
    ∀ (k : Nat) (fetch : Nat → HttpResp) (d : Nat → List Row × Option String × Option Bool),
      (∀ i, i ≤ k → decodeOf obj cols (fetch i) = some (d i)) →
      (∀ i, i < k → (d i).1 ≠ [] ∧ (d i).2.2 ≠ some false) →
      (d k).1 = [] →
      ∀ (fuel : Nat), k + 1 ≤ fuel → ∀ (cursor : Option String) (acc : List Row),
        (scanLoop obj quals cols base psz fetch fuel cursor acc).calls = k + 1 ∧
        (scanLoop obj quals cols base psz fetch fuel cursor acc).err = none ∧
        (scanLoop obj quals cols base psz fetch fuel cursor acc).completed = true := by
  intro k
  induction k with
  | zero =>
    intro fetch d hdec _ hempty fuel hfuel cursor acc
    obtain ⟨f, rfl⟩ : ∃ f, fuel = f + 1 := ⟨fuel - 1, by omega⟩
    have h0 := hdec 0 (by omega)
    rw [scanLoop]
    cases hf : fetch 0 with
    | failed => rw [hf] at h0; simp [decodeOf] at h0
    | ok body =>
      rw [hf] at h0
      cases hr : resp_to_rows obj body cols with
      | error e => rw [decodeOf, hr] at h0; simp at h0
      | ok dd =>
        rw [decodeOf, hr] at h0
        simp only [Option.some.injEq] at h0
        obtain ⟨rows, cur, hm⟩ := dd
        have hrows : rows = [] := by
          have := hempty
          rw [← h0] at this
          exact this
        subst hrows
        simp [hr]
  | succ k ih =>
    intro fetch d hdec hgood hempty fuel hfuel cursor acc
    obtain ⟨f, rfl⟩ : ∃ f, fuel = f + 1 := ⟨fuel - 1, by omega⟩
    have h0 := hdec 0 (by omega)
    rw [scanLoop]
    cases hf : fetch 0 with
    | failed => rw [hf] at h0; simp [decodeOf] at h0
    | ok body =>
      rw [hf] at h0
      cases hr : resp_to_rows obj body cols with
      | error e => rw [decodeOf, hr] at h0; simp at h0
      | ok dd =>
        rw [decodeOf, hr] at h0
        simp only [Option.some.injEq] at h0
        obtain ⟨rows, cur, hm⟩ := dd
        have hg := hgood 0 (by omega)
        rw [← h0] at hg
        have hrowsb : rows.isEmpty = false := by
          cases rows with
          | nil => exact absurd rfl hg.1
          | cons a b => rfl
        simp only [hr, hrowsb, Bool.false_eq_true, if_false, hg.2, if_false]
        have step := ih (fun n => fetch (n + 1)) (fun n => d (n + 1))
          (fun i hi => hdec (i + 1) (by omega))
          (fun i hi => hgood (i + 1) (by omega))
          hempty
          f (by omega) cur (acc ++ rows)
        refine ⟨?_, ?_, ?_⟩
        · simp [step.1]
        · simp [step.2.1]
        · simp [step.2.2]

theorem scanLoop_budget_exhausted (obj : String) (quals : List Qual) (cols : List String)
    (base : String) (psz : Int) :
    ∀ (fuel : Nat) (fetch : Nat → HttpResp),
      (∀ i, i < fuel → ∃ rows cur, decodeOf obj cols (fetch i) = some (rows, cur, some true) ∧
        rows ≠ []) →
      ∀ (cursor : Option String) (acc : List Row),
        (scanLoop obj quals cols base psz fetch fuel cursor acc).calls = fuel := by
  intro fuel
  induction fuel with
  | zero => intro fetch _ cursor acc; simp [scanLoop]
  | succ f ih =>
    intro fetch hdec cursor acc
    obtain ⟨rows, cur, h0, hrows⟩ := hdec 0 (by omega)
    rw [scanLoop]
    cases hf : fetch 0 with
    | failed => rw [hf] at h0; simp [decodeOf] at h0
    | ok body =>
      rw [hf] at h0
      cases hr : resp_to_rows obj body cols with
      | error e => rw [decodeOf, hr] at h0; simp at h0
      | ok dd =>
        rw [decodeOf, hr] at h0
        simp only [Option.some.injEq] at h0
        subst h0
        have hrowsb : rows.isEmpty = false := by
          cases rows with
          | nil => exact absurd rfl hrows
          | cons a b => rfl
        simp only [hr, hrowsb, Bool.false_eq_true, if_false]
        have hne2 : ¬((some true : Option Bool) = some false) := by simp
        simp only [hne2, if_false]
        have step := ih (fun n => fetch (n + 1)) (fun i hi => hdec (i + 1) (by omega)) cur (acc ++ rows)
        simp [step]

/-- The default arm of `resp_to_rows`: an object type outside the registry
reports the table-not-found condition. -/
theorem resp_to_rows_unknown (obj : String) (body : Option Json) (cols : List String)
    (h : obj ∉ (["balance", "balance_transactions", "charges", "customers",
      "invoices", "payment_intents", "subscriptions"] : List String)) :
    resp_to_rows obj body cols = .error .tableNotFound := by
  simp only [List.mem_cons, not_or] at h
  unfold resp_to_rows
  split <;> simp_all

/-- `"limit"` is never a pushdown field name. -/
theorem limit_not_in_fieldsFor (obj : String) : "limit" ∉ fieldsFor obj := by
  unfold fieldsFor
  repeat' split
  all_goals decide

/-- `i64Max.toNat` is positive (the no-limit page budget allows a first
iteration). -/
theorem i64Max_toNat_succ : i64Max.toNat = 9223372036854775806 + 1 := by decide

/-- `begin_scan` with a present object option, a configured client and no
limit runs the loop with the `i64::MAX` page budget. -/
theorem begin_scan_no_limit (st : FdwState) (fetch : Nat → HttpResp) (quals : List Qual)
    (cols : List String) (options : List (String × String)) (obj : String)
    (hobj : lookupOption options "object" = some obj) (hcl : st.hasClient = true) :
    begin_scan st fetch quals cols none options =
      runLoop st fetch quals cols obj 100 i64Max := by
  rw [begin_scan, hobj]
  simp [hcl]

/-! ### Concrete fixtures used by witnesses and counterexamples -/

/-- A wrapper state with a configured client and no buffered result. -/
def stEmpty : FdwState :=
  { base_url := "https://api.stripe.com/v1/", hasClient := true, scan_result := none }

/-- The charge element of the round-trip example. -/
def sampleChargeElem : Json :=
  Json.obj [("id", Json.str "ch_1"), ("amount", Json.num 500), ("currency", Json.str "usd")]

/-- The response body of the round-trip example. -/
def sampleChargeBody : Json :=
  Json.obj [("data", Json.arr [sampleChargeElem]), ("has_more", Json.bool false)]

/-- A one-customer page with `has_more = true` and the given id. -/
def pageMore (i : String) : Json :=
  Json.obj [("data", Json.arr [Json.obj [("id", Json.str i)]]), ("has_more", Json.bool true)]

/-- A one-customer page with `has_more = false` and the given id. -/
def pageLast (i : String) : Json :=
  Json.obj [("data", Json.arr [Json.obj [("id", Json.str i)]]), ("has_more", Json.bool false)]

/-- A page that decodes to zero rows (`data` is an empty array). -/
def pageEmpty : Json := Json.obj [("data", Json.arr [])]

/-! ### Claim theorems -/

/-- Claim C8: decoding
`{"data":[{"id":"ch_1","amount":500,"currency":"usd"}],"has_more":false}`
for object type `charges` with requested columns `["id","amount"]` yields
exactly one row with cells `id="ch_1"` and `amount=500` and no `currency`
cell; requesting `attrs` additionally attaches the raw element under the
`attrs` column. -/
theorem c8_round_trip :
    resp_to_rows "charges" (some sampleChargeBody) ["id", "amount"] =
      .ok ([[("id", some (Cell.string "ch_1")), ("amount", some (Cell.i64 500))]],
        some "ch_1", some false) ∧
    resp_to_rows "charges" (some sampleChargeBody) ["id", "amount", "attrs"] =
      .ok ([[("id", some (Cell.string "ch_1")), ("amount", some (Cell.i64 500)),
        ("attrs", some (Cell.json sampleChargeElem))]], some "ch_1", some false) :=
  ⟨rfl, rfl⟩

/-- Claim C3: starting from a state with no buffered result, a scan whose
limit has `count == 0` makes zero HTTP calls and `iter_scan` returns no row,
for every object type, qual list, column list and option map. -/
theorem c3_count_zero_scan (st : FdwState) (fetch : Nat → HttpResp) (quals : List Qual)
    (cols : List String) (off : Int) (options : List (String × String))
    (hfresh : st.scan_result = none) :
    (begin_scan st fetch quals cols (some { count := 0, offset := off }) options).calls = 0 ∧
    (iter_scan (begin_scan st fetch quals cols (some { count := 0, offset := off })
      options).state).1 = none := by
  rw [begin_scan]
  cases h : lookupOption options "object" with
  | none => simp [iter_scan, hfresh]
  | some obj =>
    by_cases hcl : st.hasClient = true
    · simp [hcl, iter_scan, hfresh]
    · simp [hcl, iter_scan, hfresh]

theorem c3_count_zero_scan_witness :
    (begin_scan stEmpty (fun _ => .failed) [] ["id"] (some { count := 0, offset := 5 })
      [("object", "customers")]).calls = 0 ∧
    (iter_scan (begin_scan stEmpty (fun _ => .failed) [] ["id"]
      (some { count := 0, offset := 5 }) [("object", "customers")]).state).1 = none :=
  c3_count_zero_scan stEmpty (fun _ => .failed) [] ["id"] 5 [("object", "customers")] rfl

/-- Claim C10: every early-return path of `begin_scan` that fetches nothing
(missing `object` option, limit with `count == 0`, unconfigured client)
leaves the `scan_result` buffer unchanged, so rows buffered by a previous
scan are still returned by subsequent `iter_scan` calls. -/
theorem c10_early_return_frame (st : FdwState) (fetch : Nat → HttpResp) (quals : List Qual)
    (cols : List String) (limit : Option Limit) (options : List (String × String)) (off : Int) :
    (lookupOption options "object" = none →
      (begin_scan st fetch quals cols limit options).state = st) ∧
    (st.hasClient = false →
      (begin_scan st fetch quals cols limit options).state = st) ∧
    ((begin_scan st fetch quals cols (some { count := 0, offset := off }) options).state = st) ∧
    (∀ r rs, st.scan_result = some (r :: rs) →
      (iter_scan (begin_scan st fetch quals cols (some { count := 0, offset := off })
        options).state).1 = some r) := by
  have hzero : (begin_scan st fetch quals cols (some { count := 0, offset := off })
      options).state = st := by
    rw [begin_scan]
    cases h : lookupOption options "object" with
    | none => rfl
    | some obj =>
      by_cases hcl : st.hasClient = true
      · simp [hcl]
      · simp [hcl]
  refine ⟨?_, ?_, hzero, ?_⟩
  · intro h
    rw [begin_scan, h]
  · intro h
    rw [begin_scan]
    cases hopt : lookupOption options "object" with
    | none => rfl
    | some obj => simp [h]
  · intro r rs hbuf
    rw [hzero, iter_scan]
    simp [hbuf]

theorem c10_early_return_frame_witness :
    (begin_scan { base_url := "u", hasClient := false, scan_result := some [[("id",
      some (Cell.string "stale"))]] } (fun _ => .failed) [] [] none []).state =
      { base_url := "u", hasClient := false, scan_result := some [[("id",
        some (Cell.string "stale"))]] } ∧
    (iter_scan (begin_scan { base_url := "u", hasClient := true, scan_result := some [[("id",
      some (Cell.string "stale"))]] } (fun _ => .failed) [] []
      (some { count := 0, offset := 0 }) [("object", "customers")]).state).1 =
      some [("id", some (Cell.string "stale"))] :=
  ⟨(c10_early_return_frame { base_url := "u", hasClient := false, scan_result := some [[("id",
      some (Cell.string "stale"))]] } (fun _ => .failed) [] [] none [] 0).1 rfl,
   (c10_early_return_frame { base_url := "u", hasClient := true, scan_result := some [[("id",
      some (Cell.string "stale"))]] } (fun _ => .failed) [] []
      (some { count := 0, offset := 0 }) [("object", "customers")] 0).2.2.2
      [("id", some (Cell.string "stale"))] [] rfl⟩

/-- Claim C2 counterexample: for `offset = 0, count = 100` the code computes
a page budget of `100 / 100 + 1 = 2` while `ceil((0 + 100) / 100) = 1`, and
with `has_more = true` pages available the driver indeed issues 2 HTTP
calls, exceeding the claimed ceiling. -/
theorem c2_budget_counterexample :
    page_cnt_of { count := 100, offset := 0 } 100 = 2 ∧
    ((0 : Int) + 100 + 99).tdiv 100 = 1 ∧
    (begin_scan stEmpty (fun _ => .ok (some (pageMore "x"))) [] ["id"]
      (some { count := 100, offset := 0 }) [("object", "customers")]).calls = 2 :=
  ⟨rfl, rfl, rfl⟩

/-- Claim C2 (amended): for a limit with `count ≠ 0` the page budget is
`floor((offset + count) / 100) + 1` — i.e. the ceiling when 100 does not
divide `offset + count` and one more than the ceiling when it does.  The
budget's row capacity `100 * budget` always covers `offset + count` (the
driver over-fetches, never under-fetches), the budget is at least the exact
ceiling, and the loop never issues more calls than the budget. -/
theorem c2_amended_budget (l : Limit) (hoff : 0 ≤ l.offset) (hcnt : 0 ≤ l.count)
    (hne : l.count ≠ 0) (st : FdwState) (fetch : Nat → HttpResp) (quals : List Qual)
    (cols : List String) (options : List (String × String)) (obj : String)
    (hobj : lookupOption options "object" = some obj) (hcl : st.hasClient = true) :
    page_cnt_of l 100 = (l.offset + l.count) / 100 + 1 ∧
    l.offset + l.count ≤ 100 * page_cnt_of l 100 ∧
    (l.offset + l.count + 99) / 100 ≤ page_cnt_of l 100 ∧
    (begin_scan st fetch quals cols (some l) options).calls ≤ (page_cnt_of l 100).toNat := by
  have htd : (l.offset + l.count).tdiv 100 = (l.offset + l.count) / 100 :=
    Int.tdiv_eq_ediv (by omega) (by omega)
  have h1 : page_cnt_of l 100 = (l.offset + l.count) / 100 + 1 := by
    rw [page_cnt_of, htd]
  refine ⟨h1, ?_, ?_, ?_⟩
  · rw [h1]; omega
  · rw [h1]; omega
  · rw [begin_scan, hobj]
    simp only [hcl, if_true]
    rw [if_neg hne, runLoop]
    by_cases hc : (scanLoop obj quals cols st.base_url 100 fetch
        (page_cnt_of l 100).toNat none []).completed = true
    · simp only [hc, if_true]
      exact scanLoop_calls_le obj quals cols st.base_url 100 _ fetch none []
    · simp only [hc, if_false]
      exact scanLoop_calls_le obj quals cols st.base_url 100 _ fetch none []

theorem c2_amended_budget_witness :
    page_cnt_of { count := 150, offset := 0 } 100 = (0 + 150) / 100 + 1 ∧
    (0 : Int) + 150 ≤ 100 * page_cnt_of { count := 150, offset := 0 } 100 ∧
    ((0 : Int) + 150 + 99) / 100 ≤ page_cnt_of { count := 150, offset := 0 } 100 ∧
    (begin_scan stEmpty (fun _ => .ok (some (pageMore "x"))) [] ["id"]
      (some { count := 150, offset := 0 }) [("object", "customers")]).calls ≤
      (page_cnt_of { count := 150, offset := 0 } 100).toNat :=
  c2_amended_budget { count := 150, offset := 0 } (by decide) (by decide) (by decide)
    stEmpty (fun _ => .ok (some (pageMore "x"))) [] ["id"] [("object", "customers")]
    "customers" rfl rfl

/-- Claim C4 counterexample: scanning the unknown object type `widgets`
raises the table-not-found condition only after one HTTP call has been
issued — not zero as claimed (the object type is examined while decoding the
first response, not before fetching). -/
theorem c4_unknown_object_counterexample :
    (begin_scan stEmpty (fun _ => .ok (some (Json.obj []))) [] ["id"] none
      [("object", "widgets")]).calls = 1 ∧
    (begin_scan stEmpty (fun _ => .ok (some (Json.obj []))) [] ["id"] none
      [("object", "widgets")]).err = some .tableNotFound :=
  ⟨rfl, rfl⟩

/-- Claim C4 (amended): a scan of an object type outside the registry fails
with the table-not-found condition after exactly one HTTP call (the unknown
name is detected during response decoding, after the first fetch), and the
scan aborts leaving the result buffer unchanged. -/
theorem c4_unknown_object_amended (st : FdwState) (fetch : Nat → HttpResp)
    (quals : List Qual) (cols : List String) (options : List (String × String))
    (obj : String) (body : Option Json)
    (hobj : lookupOption options "object" = some obj) (hcl : st.hasClient = true)
    (hunknown : obj ∉ (["balance", "balance_transactions", "charges", "customers",
      "invoices", "payment_intents", "subscriptions"] : List String))
    (hf : fetch 0 = .ok body) :
    (begin_scan st fetch quals cols none options).calls = 1 ∧
    (begin_scan st fetch quals cols none options).err = some .tableNotFound ∧
    (begin_scan st fetch quals cols none options).state = st := by
  rw [begin_scan_no_limit st fetch quals cols options obj hobj hcl, runLoop,
    i64Max_toNat_succ,
    scanLoop_err_of_decode_error obj quals cols st.base_url 100 fetch _ none [] body
      .tableNotFound hf (resp_to_rows_unknown obj body cols hunknown)]
  simp

theorem c4_unknown_object_amended_witness :
    (begin_scan stEmpty (fun _ => .ok (some (Json.obj []))) [] ["id"] none
      [("object", "payouts")]).calls = 1 ∧
    (begin_scan stEmpty (fun _ => .ok (some (Json.obj []))) [] ["id"] none
      [("object", "payouts")]).err = some .tableNotFound ∧
    (begin_scan stEmpty (fun _ => .ok (some (Json.obj []))) [] ["id"] none
      [("object", "payouts")]).state = stEmpty :=
  c4_unknown_object_amended stEmpty (fun _ => .ok (some (Json.obj []))) [] ["id"]
    [("object", "payouts")] "payouts" (some (Json.obj [])) rfl rfl (by decide) rfl

/-- An equality qual on `customer` with a string value. -/
def qualCustomer (v : String) : Qual :=
  { field := "customer", operator := "=", value := .cell (.string v), use_or := false }

/-- Claim C5 counterexample: two `customer = ..` quals on `charges` each
emit a query parameter — the planner does not keep only the first match per
field, it appends one pair per matching qual. -/
theorem c5_pushdown_counterexample :
    (build_url "https://api.stripe.com/v1/" "charges"
      [qualCustomer "cus_a", qualCustomer "cus_b"] 100 none).queryPairs =
      [("customer", "cus_a"), ("customer", "cus_b"), ("limit", "100")] ∧
    ((build_url "https://api.stripe.com/v1/" "charges"
      [qualCustomer "cus_a", qualCustomer "cus_b"] 100 none).queryPairs.filter
        (fun p => p.1 = "customer")).length = 2 :=
  ⟨rfl, rfl⟩

/-- Claim C5 (amended): the planner iterates the qual list in order (outer
loop) and emits exactly one query parameter for every qual whose field is
eligible for the object type and whose operator is `=`, non-disjunctive,
with a scalar text value; quals that match no eligible field, and eligible
fields with no matching qual, are skipped silently; several quals on the
same field each emit a parameter, in qual order. -/
theorem c5_pushdown_amended (base obj : String) (quals : List Qual) (page_size : Int)
    (cursor : Option String) :
    (build_url base obj quals page_size cursor).queryPairs =
      quals.filterMap (qualParam (fieldsFor obj)) ++
        (if obj = "balance" then []
         else ("limit", toString page_size) :: cursorPairs cursor) := by
  rw [build_url_queryPairs, pairsOf_eq_filterMap quals (fieldsFor obj) (fieldsFor_nodup obj)]

/-- Claim C6: every object type other than `balance` receives
`limit=page_size` and `starting_after=cursor` exactly when a cursor is
present; `balance` receives no query parameters at all (in particular
neither `limit` nor `starting_after`), regardless of cursor state. -/
theorem c6_pagination_params (base obj : String) (quals : List Qual) (page_size : Int)
    (cursor : Option String) :
    (obj = "balance" → (build_url base obj quals page_size cursor).queryPairs = []) ∧
    (obj ≠ "balance" →
      ("limit", toString page_size) ∈ (build_url base obj quals page_size cursor).queryPairs ∧
      ∀ c, (("starting_after", c) ∈ (build_url base obj quals page_size cursor).queryPairs ↔
        cursor = some c)) := by
  constructor
  · intro h
    subst h
    rw [build_url_queryPairs]
    simp [fieldsFor, pairsOf_nil]
  · intro h
    rw [build_url_queryPairs]
    simp only [h, if_false]
    constructor
    · exact List.mem_append_right _ (List.mem_cons_self _ _)
    · intro c
      constructor
      · intro hmem
        rcases List.mem_append.1 hmem with hmem | hmem
        · exact absurd (mem_pairsOf_key quals (fieldsFor obj) _ hmem)
            (starting_after_not_in_fieldsFor obj)
        · rcases List.mem_cons.1 hmem with hmem | hmem
          · have hfst : ("starting_after" : String) = "limit" := congrArg Prod.fst hmem
            exact absurd hfst (by decide)
          · cases hcur : cursor with
            | none => rw [hcur] at hmem; simp [cursorPairs] at hmem
            | some c0 =>
              rw [hcur] at hmem
              simp only [cursorPairs, List.mem_singleton, Prod.mk.injEq] at hmem
              rw [hmem.2]
      · intro hc
        subst hc
        exact List.mem_append_right _ (List.mem_cons_of_mem _ (by simp [cursorPairs]))

theorem c6_pagination_params_witness :
    (build_url "u" "balance" [] 100 (some "x")).queryPairs = [] ∧
    ("limit", toString (100 : Int)) ∈ (build_url "u" "charges" [] 100
      (some "cus")).queryPairs ∧
    (("starting_after", "cus") ∈ (build_url "u" "charges" [] 100 (some "cus")).queryPairs ↔
      (some "cus" : Option String) = some "cus") :=
  ⟨(c6_pagination_params "u" "balance" [] 100 (some "x")).1 rfl,
   ((c6_pagination_params "u" "charges" [] 100 (some "cus")).2 (by decide)).1,
   ((c6_pagination_params "u" "charges" [] 100 (some "cus")).2 (by decide)).2 "cus"⟩

/-- The response object key used per object type: `balance` reads the
`available` array, every other registered type reads `data`. -/
def objKeyOf (obj : String) : String := if obj = "balance" then "available" else "data"

/-- The object type names registered in `resp_to_rows`. -/
def registryObjects : List String :=
  ["balance", "balance_transactions", "charges", "customers", "invoices",
   "payment_intents", "subscriptions"]

/-- Claim C9 counterexample: the singleton object type `balance` is not
decoded by exposing the top-level object as a one-element virtual array.  A
top-level balance object without an `available` array fails as malformed
(under the claim it would decode to one row), and a body whose `available`
array holds two elements decodes to two rows (under the claim the top-level
object would be the single element). -/
theorem c9_singleton_counterexample :
    resp_to_rows "balance" (some (Json.obj [("amount", Json.num 5),
      ("currency", Json.str "usd")])) ["amount"] = .error .malformed ∧
    resp_to_rows "balance" (some (Json.obj [("available",
      Json.arr [Json.obj [("amount", Json.num 1)], Json.obj [("amount", Json.num 2)]])]))
      ["amount"] =
      .ok ([[("amount", some (Cell.i64 1))], [("amount", some (Cell.i64 2))]], none, none) :=
  ⟨rfl, rfl⟩

/-- Claim C9 (amended): for every registered object type — including the
singleton `balance`, which is decoded through the `available` object-key
locator exactly like collection types use `data` — an unparseable body, or a
body whose object-key locator is missing or not an array, fails with the
malformed-response condition, and that condition aborts the scan with no
partial decode and the result buffer unchanged. -/
theorem c9_malformed_amended :
    (∀ obj ∈ registryObjects, ∀ (cols : List String),
      resp_to_rows obj none cols = .error .malformed) ∧
    (∀ obj ∈ registryObjects, ∀ (value : Json) (cols : List String),
      (value.asObject.bind (fun kvs => jlookup kvs (objKeyOf obj))).bind Json.asArray =
        none →
      resp_to_rows obj (some value) cols = .error .malformed) ∧
    (∀ (st : FdwState) (fetch : Nat → HttpResp) (quals : List Qual) (cols : List String)
       (options : List (String × String)) (obj : String) (body : Option Json),
      lookupOption options "object" = some obj → st.hasClient = true →
      fetch 0 = .ok body → resp_to_rows obj body cols = .error .malformed →
      (begin_scan st fetch quals cols none options).calls = 1 ∧
      (begin_scan st fetch quals cols none options).err = some .malformed ∧
      (begin_scan st fetch quals cols none options).state = st) := by
  refine ⟨?_, ?_, ?_⟩
  · intro obj hmem cols
    fin_cases hmem <;> rfl
  · intro obj hmem value cols hloc
    fin_cases hmem <;>
      (simp only [objKeyOf, String.reduceEq, reduceIte] at hloc;
       simp only [resp_to_rows, extLift, extract_to_rows];
       rw [hloc])
  · intro st fetch quals cols options obj body hobj hcl hf hr
    rw [begin_scan_no_limit st fetch quals cols options obj hobj hcl, runLoop,
      i64Max_toNat_succ,
      scanLoop_err_of_decode_error obj quals cols st.base_url 100 fetch _ none [] body
        .malformed hf hr]
    simp

theorem c9_malformed_amended_witness :
    resp_to_rows "charges" none ["id"] = .error .malformed ∧
    resp_to_rows "customers" (some (Json.obj [("data", Json.str "nope")])) ["id"] =
      .error .malformed ∧
    ((begin_scan stEmpty (fun _ => .ok none) [] ["id"] none
      [("object", "charges")]).calls = 1 ∧
     (begin_scan stEmpty (fun _ => .ok none) [] ["id"] none
      [("object", "charges")]).err = some .malformed ∧
     (begin_scan stEmpty (fun _ => .ok none) [] ["id"] none
      [("object", "charges")]).state = stEmpty) :=
  ⟨c9_malformed_amended.1 "charges" (by decide) ["id"],
   c9_malformed_amended.2.1 "customers" (by decide)
     (Json.obj [("data", Json.str "nope")]) ["id"] rfl,
   c9_malformed_amended.2.2 stEmpty (fun _ => .ok none) [] ["id"]
     [("object", "charges")] "charges" none rfl rfl rfl rfl⟩

/-- Claim C1: the fetch loop stops exactly on the three source conditions.
Part 1: if the first `k ≥ 1` calls all decode to non-empty pages, pages
`0..k-2` carry `has_more = true` and page `k-1` carries `has_more = false`,
then (budget permitting) the loop issues exactly `k` HTTP calls and stops
without error immediately after the `has_more = false` page.
Part 2: if pages `0..k-1` are non-empty with `has_more ≠ Some(false)` and
page `k` decodes to zero rows — whatever its `has_more` — the loop stops at
page `k`, having issued exactly `k + 1` calls.
Part 3: if every page within the budget decodes non-empty with
`has_more = true`, the loop continues (with the decoded cursor) until the
page budget is exhausted, issuing exactly `budget` calls. -/
theorem c1_fetch_loop_stops (obj : String) (quals : List Qual) (cols : List String)
    (base : String) (psz : Int) :
    (∀ k, 1 ≤ k →
      ∀ (fetch : Nat → HttpResp) (d : Nat → List Row × Option String × Option Bool),
      (∀ i, i < k → decodeOf obj cols (fetch i) = some (d i)) →
      (∀ i, i < k → (d i).1 ≠ []) →
      (∀ i, i + 1 < k → (d i).2.2 = some true) →
      (d (k - 1)).2.2 = some false →
      ∀ fuel, k ≤ fuel → ∀ (cursor : Option String) (acc : List Row),
        (scanLoop obj quals cols base psz fetch fuel cursor acc).calls = k ∧
        (scanLoop obj quals cols base psz fetch fuel cursor acc).err = none) ∧
    (∀ (k : Nat) (fetch : Nat → HttpResp)
        (d : Nat → List Row × Option String × Option Bool),
      (∀ i, i ≤ k → decodeOf obj cols (fetch i) = some (d i)) →
      (∀ i, i < k → (d i).1 ≠ [] ∧ (d i).2.2 ≠ some false) →
      (d k).1 = [] →
      ∀ fuel, k + 1 ≤ fuel → ∀ (cursor : Option String) (acc : List Row),
        (scanLoop obj quals cols base psz fetch fuel cursor acc).calls = k + 1 ∧
        (scanLoop obj quals cols base psz fetch fuel cursor acc).err = none) ∧
    (∀ (fuel : Nat) (fetch : Nat → HttpResp),
      (∀ i, i < fuel → ∃ rows cur,
        decodeOf obj cols (fetch i) = some (rows, cur, some true) ∧ rows ≠ []) →
      ∀ (cursor : Option String) (acc : List Row),
        (scanLoop obj quals cols base psz fetch fuel cursor acc).calls = fuel) :=
  ⟨fun k hk fetch d h1 h2 h3 h4 fuel hf cursor acc =>
    ⟨(scanLoop_hasMore_chain obj quals cols base psz k hk fetch d h1 h2 h3 h4
        fuel hf cursor acc).1,
     (scanLoop_hasMore_chain obj quals cols base psz k hk fetch d h1 h2 h3 h4
        fuel hf cursor acc).2.1⟩,
   fun k fetch d h1 h2 h3 fuel hf cursor acc =>
    ⟨(scanLoop_empty_page_stops obj quals cols base psz k fetch d h1 h2 h3
        fuel hf cursor acc).1,
     (scanLoop_empty_page_stops obj quals cols base psz k fetch d h1 h2 h3
        fuel hf cursor acc).2.1⟩,
   fun fuel fetch h cursor acc =>
     scanLoop_budget_exhausted obj quals cols base psz fuel fetch h cursor acc⟩

/-- Witness oracle, part 1: page 0 has `has_more = true`, page 1 has
`has_more = false`. -/
def w1fetch : Nat → HttpResp
  | 0 => .ok (some (pageMore "a"))
  | _ => .ok (some (pageLast "b"))

/-- Decode outcomes of `w1fetch` for `customers` / `["id"]`. -/
def w1d : Nat → List Row × Option String × Option Bool
  | 0 => ([[("id", some (Cell.string "a"))]], some "a", some true)
  | _ => ([[("id", some (Cell.string "b"))]], some "b", some false)

/-- Witness oracle, part 2: page 0 has `has_more = true`, page 1 decodes to
zero rows. -/
def w2fetch : Nat → HttpResp
  | 0 => .ok (some (pageMore "a"))
  | _ => .ok (some pageEmpty)

/-- Decode outcomes of `w2fetch` for `customers` / `["id"]`. -/
def w2d : Nat → List Row × Option String × Option Bool
  | 0 => ([[("id", some (Cell.string "a"))]], some "a", some true)
  | _ => ([], none, none)

theorem c1_fetch_loop_stops_witness :
    ((scanLoop "customers" [] ["id"] "u" 100 w1fetch 5 none []).calls = 2 ∧
     (scanLoop "customers" [] ["id"] "u" 100 w1fetch 5 none []).err = none) ∧
    ((scanLoop "customers" [] ["id"] "u" 100 w2fetch 5 none []).calls = 2 ∧
     (scanLoop "customers" [] ["id"] "u" 100 w2fetch 5 none []).err = none) ∧
    (scanLoop "customers" [] ["id"] "u" 100 (fun _ => .ok (some (pageMore "a")))
      3 none []).calls = 3 :=
  ⟨(c1_fetch_loop_stops "customers" [] ["id"] "u" 100).1 2 (by omega) w1fetch w1d
      (by intro i hi; interval_cases i <;> rfl)
      (by intro i hi; interval_cases i <;> simp [w1d])
      (by
        intro i hi
        have h0 : i = 0 := by omega
        subst h0
        rfl)
      (by simp [w1d])
      5 (by omega) none [],
   (c1_fetch_loop_stops "customers" [] ["id"] "u" 100).2.1 1 w2fetch w2d
      (by intro i hi; interval_cases i <;> rfl)
      (by intro i hi; interval_cases i; simp [w2d])
      (by simp [w2d])
      5 (by omega) none [],
   (c1_fetch_loop_stops "customers" [] ["id"] "u" 100).2.2 3
      (fun _ => .ok (some (pageMore "a")))
      (fun i hi => ⟨[[("id", some (Cell.string "a"))]], some "a", rfl, by simp⟩)
      none []⟩

/-- Indexing a list at 0 is its optional head. -/
theorem list_getElem_zero (l : List Url) : l[0]? = l.head? := by
  cases l <;> simp

/-- Claim C7: `nextCursor` is the `id` field (as text) of the last decoded
element — absent when the page is empty — and after a non-empty page that
does not stop the scan, the next URL the loop builds carries
`starting_after` equal to the decoded cursor (for paginated object types,
`starting_after = <id of last element>`). -/
theorem c7_cursor_propagation :
    (∀ (value : Json) (obj_key : String) (cc : List (String × String))
       (tg : List String) (elems : List Json),
      (value.asObject.bind (fun kvs => jlookup kvs obj_key)).bind Json.asArray =
        some elems →
      (elems = [] →
        (extract_to_rows (some value) obj_key cc tg).map (fun t => t.2.1) = some none) ∧
      (∀ last s, elems.getLast? = some last →
        (last.getKey "id").bind Json.asStr = some s →
        (extract_to_rows (some value) obj_key cc tg).map (fun t => t.2.1) =
          some (some s))) ∧
    (∀ (obj : String) (quals : List Qual) (cols : List String) (base : String)
       (psz : Int) (fetch : Nat → HttpResp) (body : Option Json) (rows : List Row)
       (cur : Option String) (hm : Option Bool) (f : Nat) (cursor0 : Option String)
       (acc : List Row),
      fetch 0 = .ok body → resp_to_rows obj body cols = .ok (rows, cur, hm) →
      rows ≠ [] → hm ≠ some false →
      (scanLoop obj quals cols base psz fetch (f + 2) cursor0 acc).urls[1]? =
        some (build_url base obj quals psz cur) ∧
      (obj ≠ "balance" → ∀ c, cur = some c →
        ("starting_after", c) ∈ (build_url base obj quals psz cur).queryPairs)) := by
  constructor
  · intro value obj_key cc tg elems harr
    constructor
    · intro he
      subst he
      simp [extract_to_rows, harr]
    · intro last s hlast hid
      simp [extract_to_rows, harr, hlast, hid]
  · intro obj quals cols base psz fetch body rows cur hm f cursor0 acc hf hr hrows hm2
    have hrowsb : rows.isEmpty = false := by
      cases rows with
      | nil => exact absurd rfl hrows
      | cons a b => rfl
    constructor
    · rw [scanLoop]
      simp only [hf, hr, hrowsb, Bool.false_eq_true, if_false, hm2]
      rw [List.getElem?_cons_succ, list_getElem_zero]
      exact scanLoop_urls_head obj quals cols base psz (fun n => fetch (n + 1)) f cur
        (acc ++ rows)
    · intro hobj c hc
      subst hc
      rw [build_url_queryPairs]
      simp only [hobj, if_false]
      exact List.mem_append_right _ (List.mem_cons_of_mem _ (by simp [cursorPairs]))

theorem c7_cursor_propagation_witness :
    (extract_to_rows (some (Json.obj [("data", Json.arr [Json.obj [("id", Json.str "a")],
      Json.obj [("id", Json.str "b")]])])) "data" [("id", "string")] ["id"]).map
        (fun t => t.2.1) = some (some "b") ∧
    (scanLoop "customers" [] ["id"] "u" 100 w1fetch (3 + 2) none []).urls[1]? =
      some (build_url "u" "customers" [] 100 (some "a")) ∧
    ("starting_after", "a") ∈ (build_url "u" "customers" [] 100 (some "a")).queryPairs :=
  ⟨(c7_cursor_propagation.1 (Json.obj [("data", Json.arr [Json.obj [("id", Json.str "a")],
      Json.obj [("id", Json.str "b")]])]) "data" [("id", "string")] ["id"]
      [Json.obj [("id", Json.str "a")], Json.obj [("id", Json.str "b")]] rfl).2
      (Json.obj [("id", Json.str "b")]) "b" rfl rfl,
   (c7_cursor_propagation.2 "customers" [] ["id"] "u" 100 w1fetch
      (some (pageMore "a")) [[("id", some (Cell.string "a"))]] (some "a") (some true)
      3 none [] rfl rfl (by simp) (by simp)).1,
   (c7_cursor_propagation.2 "customers" [] ["id"] "u" 100 w1fetch
      (some (pageMore "a")) [[("id", some (Cell.string "a"))]] (some "a") (some true)
      3 none [] rfl rfl (by simp) (by simp)).2 (by decide) "a" rfl⟩
